import Mathlib

/-!
Verification of the vpnboard panel API client (package `vpnboard`,
file `api/vpnboard/model.go`).

The Go code is shallowly embedded:
* machine integers (`int64`, `uint64`, `uint32`, `int`) are modelled as
  `ℤ`/`ℕ` with explicit wrapping (`% 2 ^ 64`, ...) exactly where Go
  arithmetic can overflow;
* Go `float64` values (the `SpeedLimit` override in the config) are
  modelled as exact rationals `ℚ`; the Go conversion `uint64(f)` of a
  positive float truncates toward zero, i.e. takes the floor;
* the HTTP transport and the JSON decoder are external collaborators:
  a call outcome is a function of the client configuration, the current
  ETag state, and the transport result handed back by resty
  (`Except String RestyResponse`); `json.RawMessage` payloads are
  modelled by the inductive `RawMessage`, with `json.Unmarshal` into a
  typed struct modelled by the corresponding projection;
* the mutation of the client's `eTags` map is modelled by explicit
  state passing (`EtagState` in, `EtagState` out).
-/

namespace VpnBoard

/-! ### Machine-integer helpers -/

/-- Reduction of a mathematical integer to the `int64` value it denotes
under two's-complement wrapping (Go overflow semantics). -/
def wrapInt64 (x : ℤ) : ℤ := (x + 2 ^ 63) % 2 ^ 64 - 2 ^ 63

/-- The natural number denoted by `uint64(x)` for an `int64` value `x`
(Go conversion semantics: reduction mod `2 ^ 64`). -/
def toUInt64Nat (x : ℤ) : ℕ := (x % (2 ^ 64 : ℤ)).toNat

/-- The natural number denoted by `uint32(x)` for an `int64` value `x`. -/
def toUInt32Nat (x : ℤ) : ℕ := (x % (2 ^ 32 : ℤ)).toNat

/-- Go integer division truncates toward zero (`Int.tdiv`). -/
def goDiv (a b : ℤ) : ℤ := Int.tdiv a b

/-! ### Mbps → bytes/sec conversions, one per source type

`model.go` converts a speed limit in Mbps to bytes per second on three
paths with three different machine types. -/

/-- `uint64(c.SpeedLimit * 1000000 / 8)` where `c.SpeedLimit` is a
`float64` (modelled as an exact rational).  The float→`uint64`
conversion truncates toward zero; the guard `c.SpeedLimit > 0` makes
the argument positive, so this is the floor.  (`Int.toNat` clamps
negatives to `0`; the code only reaches this expression under the
positivity guard.) -/
def floatMbpsToBps (q : ℚ) : ℕ := (⌊q * 1000000 / 8⌋).toNat

/-- `uint64((nodeInfoResponse.NodeSpeedLimit * 1000000) / 8)` where
`NodeSpeedLimit` is an `int64`: the multiplication wraps in `int64`,
the division truncates toward zero, the final conversion reduces
mod `2 ^ 64`. -/
def int64MbpsToBps (n : ℤ) : ℕ := toUInt64Nat (goDiv (wrapInt64 (n * 1000000)) 8)

/-- `users[i].SpeedLimit * 1000000 / 8` where `SpeedLimit` is a
`uint64`: the multiplication wraps mod `2 ^ 64`, the division is
unsigned (floor). -/
def uint64MbpsToBps (s : ℕ) : ℕ := s * 1000000 % 2 ^ 64 / 8

/-! ### The email-format check (`isEmailFormat`)

The Go function matches `user_name` against the anchored regular
expression `^[a-zA-Z0-9._%+-]+@[a-zA-Z0-9.-]+\.[a-zA-Z]{2,}$`.
Since `@` belongs to none of the character classes, a matching string
decomposes uniquely at its first `@`; the part after the `@` must split
at some `.` into a nonempty run of domain characters and a trailing run
of at least two ASCII letters.  The matcher below implements exactly
that decomposition search. -/

/-- The class `[a-zA-Z0-9._%+-]` (local part). -/
def isLocalChar (c : Char) : Bool :=
  c.isAlpha || c.isDigit || c == '.' || c == '_' || c == '%' || c == '+' || c == '-'

/-- The class `[a-zA-Z0-9.-]` (domain part before the last mandatory dot). -/
def isDomainChar (c : Char) : Bool :=
  c.isAlpha || c.isDigit || c == '.' || c == '-'

/-- Split a character list at its first `@`: returns the part before
and the part after, or `none` when no `@` occurs. -/
def splitAtSign : List Char → Option (List Char × List Char)
  | [] => none
  | c :: rest =>
    if c == '@' then some ([], rest)
    else (splitAtSign rest).map (fun pr => (c :: pr.1, pr.2))

/-- Does `r` match `[a-zA-Z0-9.-]+\.[a-zA-Z]{2,}` (anchored on both
sides)?  Searches every split position for the mandatory dot. -/
def domainTailMatch (r : List Char) : Bool :=
  (List.range r.length).any (fun i =>
    decide (r.take i ≠ []) && (r.take i).all isDomainChar &&
      (match r.drop i with
       | c :: t => c == '.' && t.all Char.isAlpha && decide (2 ≤ t.length)
       | [] => false))

/-- `isEmailFormat` from `model.go`: anchored match of
`^[a-zA-Z0-9._%+-]+@[a-zA-Z0-9.-]+\.[a-zA-Z]{2,}$`. -/
def isEmailFormat (s : String) : Bool :=
  match splitAtSign s.toList with
  | some pr => decide (pr.1 ≠ []) && pr.1.all isLocalChar && domainTailMatch pr.2
  | none => false

/-- The email grammar stated the way the specification states it: a
nonempty local part over `[a-zA-Z0-9._%+-]`, an `@`, a nonempty domain
over `[a-zA-Z0-9.-]`, a dot, and a TLD of at least two ASCII letters. -/
def EmailGrammar (s : String) : Prop :=
  ∃ l d t : List Char,
    s.toList = l ++ ('@' :: (d ++ ('.' :: t))) ∧
    l ≠ [] ∧ (∀ c ∈ l, isLocalChar c = true) ∧
    d ≠ [] ∧ (∀ c ∈ d, isDomainChar c = true) ∧
    2 ≤ t.length ∧ (∀ c ∈ t, c.isAlpha = true)

/-! ### Wire data model (`model.go`) -/

/-- `NodeInfoResponse` (panel node-info payload). -/
structure NodeInfoResponse where
  Name : String
  Remarks : String
  Address : String
  Port : ℤ
  NodeOrder : ℤ
  NodeSpeedLimit : ℤ
  NodeType : String
  EnableTLS : Bool
  Path : String
  TransportProtocol : String
  Host : String
  ServiceName : String
  EnableVless : Bool
  Method : String
  ServerKey : String
deriving DecidableEq

/-- `UserListResponseItem` (one panel user record).  `SpeedLimit` is a
`uint64` in Go, modelled as `ℕ`; `UID`/`DeviceLimit` are `int`. -/
structure UserListResponseItem where
  UID : ℤ
  UUID : String
  UserName : String
  SpeedLimit : ℕ
  DeviceLimit : ℤ
deriving DecidableEq

/-- `UserListResponse` (panel user-list payload). -/
structure UserListResponse where
  List : List UserListResponseItem
deriving DecidableEq

/-- A `json.RawMessage` payload, as far as the two typed decoders in
this file can observe it: it either decodes as a node-info payload, as
a user-list payload, or as neither. -/
inductive RawMessage where
  | nodePayload : NodeInfoResponse → RawMessage
  | userPayload : UserListResponse → RawMessage
  | malformed : String → RawMessage
deriving DecidableEq

/-- The common `Response` envelope `{code, msg, data}`. -/
structure Response where
  Code : ℤ
  Msg : String
  Data : RawMessage
deriving DecidableEq

/-- `json.Unmarshal(response.Data, nodeInfoResponse)`. -/
def unmarshalNodeInfo : RawMessage → Option NodeInfoResponse
  | .nodePayload r => some r
  | _ => none

/-- `json.Unmarshal(response.Data, userListResponse)`. -/
def unmarshalUserList : RawMessage → Option UserListResponse
  | .userPayload u => some u
  | _ => none

/-! ### Canonical (host-side) data model (`api` package) -/

/-- The fields of `api.NodeInfo` assigned by `parseNodeInfo`. -/
structure NodeInfo where
  NodeType : String
  NodeID : ℤ
  Port : ℕ
  SpeedLimit : ℕ
  TransportProtocol : String
  Host : String
  Path : String
  EnableTLS : Bool
  EnableVless : Bool
  VlessFlow : String
  ServiceName : String
  CypherMethod : String
  ServerKey : String
deriving DecidableEq

/-- The fields of `api.UserInfo` assigned by `GetUserList`.  Fields
not assigned by the loop keep Go's zero value (empty string). -/
structure UserInfo where
  UID : ℤ
  UUID : String
  Email : String
  Passwd : String
  SpeedLimit : ℕ
  DeviceLimit : ℤ
deriving DecidableEq

/-! ### Client configuration and state -/

/-- The `APIClient` configuration fields read by the functions under
verification (`SpeedLimit` is a `float64`, modelled as `ℚ`). -/
structure Config where
  APIHost : String
  NodeID : ℤ
  NodeType : String
  EnableVless : Bool
  VlessFlow : String
  SpeedLimit : ℚ
  DeviceLimit : ℤ
deriving DecidableEq

/-- The client's `eTags` map: one cache-validation token per logical
resource (keys `"node"` and `"users"`; a missing key reads as `""`). -/
structure EtagState where
  node : String
  users : String
deriving DecidableEq

/-- A resty response as observed by the code under verification:
status code, the `ETag` response header (header lookup in Go is
case-insensitive, so `Get("ETag")` and `Get("Etag")` read the same
header), the raw body, and the envelope decoded by
`SetResult(&Response{})`. -/
structure RestyResponse where
  statusCode : ℕ
  etag : String
  body : String
  result : Response
deriving DecidableEq

/-- The error values the client can return, as a sum type (Go returns
`error` values built with `errors.New` / `fmt.Errorf`; each
constructor records the data interpolated into the message). -/
inductive ApiError where
  | requestError (msg : String)
  | nodeNotModified
  | userNotModified
  | unsupportedNodeType (t : String)
  | transportFailed (url : String) (msg : String)
  | remoteFailed (url : String) (body : String) (terr : Option String)
  | retInvalid (envelope : Response)
  | unmarshalFailed (typeName : String)
  | parseNodeInfoFailed (payload : NodeInfoResponse) (msg : String)
deriving DecidableEq

/-- The observable outcome of one `GetNodeInfo` / `GetUserList` call:
the returned value or error, the `eTags` state after the call, whether
an HTTP request was issued, and the `If-None-Match` header value sent
with it (`none` when no request was issued). -/
structure CallOutcome (α : Type) where
  result : Except ApiError α
  state : EtagState
  requestIssued : Bool
  ifNoneMatchSent : Option String

/-! ### The functions under verification -/

/-- `assembleURL`. -/
def assembleURL (c : Config) (path : String) : String := c.APIHost ++ path

/-- The node-info endpoint path. -/
def nodeInfoPath : String := "/api/public/xrayr/node/info"

/-- The user-list endpoint path. -/
def userListPath : String := "/api/public/xrayr/user/list"

/-- `parseResponse`: transport error first, then HTTP status strictly
above 400, then the envelope's own `code` field, then success. -/
def parseResponse (c : Config) (res : RestyResponse) (path : String)
    (err : Option String) : Except ApiError Response :=
  match err with
  | some e => .error (.transportFailed (assembleURL c path) e)
  | none =>
    if 400 < res.statusCode then
      .error (.remoteFailed (assembleURL c path) res.body none)
    else if res.result.Code = 0 then
      .ok res.result
    else
      .error (.retInvalid res.result)

/-- `parseNodeInfo`: normalizes a node-info payload.  Always returns
`.ok` (the Go function always returns a `nil` error). -/
def parseNodeInfo (c : Config) (r : NodeInfoResponse) : Except String NodeInfo :=
  let speedLimit : ℕ :=
    if c.SpeedLimit > 0 then floatMbpsToBps c.SpeedLimit
    else int64MbpsToBps r.NodeSpeedLimit
  .ok
    { NodeType := r.NodeType
      NodeID := c.NodeID
      Port := toUInt32Nat r.Port
      SpeedLimit := speedLimit
      TransportProtocol := r.TransportProtocol
      Host := r.Host
      Path := r.Path
      EnableTLS := r.EnableTLS
      EnableVless := r.EnableVless
      VlessFlow := c.VlessFlow
      ServiceName := r.ServiceName
      CypherMethod := r.Method
      ServerKey := r.ServerKey }

/-- The body of the normalization loop in `GetUserList` for one user
record. -/
def normalizeUser (c : Config) (u : UserListResponseItem) : UserInfo :=
  { UID := u.UID
    UUID := u.UUID
    SpeedLimit :=
      if c.SpeedLimit > 0 then floatMbpsToBps c.SpeedLimit
      else uint64MbpsToBps u.SpeedLimit
    DeviceLimit := if c.DeviceLimit > 0 then c.DeviceLimit else u.DeviceLimit
    Email :=
      if isEmailFormat u.UserName then u.UserName
      else u.UserName ++ "@vpnboard.user"
    Passwd := if c.NodeType == "Shadowsocks" then u.UUID else "" }

/-- The node-type switch at the top of `GetUserList`. -/
def supportedNodeType (t : String) : Bool :=
  t == "V2ray" || t == "Trojan" || t == "Shadowsocks" || t == "Vmess" || t == "Vless"

/-- `GetNodeInfo`, as a function of the configuration, the current
`eTags` state and the transport result.  The Go method mutates
`c.eTags["node"]` after the 304 check and before parsing; the
embedding passes that state explicitly. -/
def GetNodeInfo (c : Config) (st : EtagState) (tr : Except String RestyResponse) :
    CallOutcome NodeInfo :=
  match tr with
  | .error e =>
    { result := .error (.requestError e)
      state := st
      requestIssued := true
      ifNoneMatchSent := some st.node }
  | .ok res =>
    if res.statusCode = 304 then
      { result := .error .nodeNotModified
        state := st
        requestIssued := true
        ifNoneMatchSent := some st.node }
    else
      { result :=
          match parseResponse c res nodeInfoPath none with
          | .error e => .error e
          | .ok response =>
            match unmarshalNodeInfo response.Data with
            | none => .error (.unmarshalFailed "NodeInfoResponse")
            | some nir =>
              match parseNodeInfo c nir with
              | .error e => .error (.parseNodeInfoFailed nir e)
              | .ok ni => .ok ni
        state :=
          if res.etag ≠ "" ∧ res.etag ≠ st.node then { st with node := res.etag }
          else st
        requestIssued := true
        ifNoneMatchSent := some st.node }

/-- `GetUserList`, same embedding as `GetNodeInfo`.  The node-type
validation precedes the request: on an unsupported type the function
returns before any transport interaction (`requestIssued := false`,
the transport result is never examined). -/
def GetUserList (c : Config) (st : EtagState) (tr : Except String RestyResponse) :
    CallOutcome (List UserInfo) :=
  if supportedNodeType c.NodeType then
    match tr with
    | .error e =>
      { result := .error (.requestError e)
        state := st
        requestIssued := true
        ifNoneMatchSent := some st.users }
    | .ok res =>
      if res.statusCode = 304 then
        { result := .error .userNotModified
          state := st
          requestIssued := true
          ifNoneMatchSent := some st.users }
      else
        { result :=
            match parseResponse c res userListPath none with
            | .error e => .error e
            | .ok response =>
              match unmarshalUserList response.Data with
              | none => .error (.unmarshalFailed "UserListResponse")
              | some ul => .ok (ul.List.map (normalizeUser c))
          state :=
            if res.etag ≠ "" ∧ res.etag ≠ st.users then { st with users := res.etag }
            else st
          requestIssued := true
          ifNoneMatchSent := some st.users }
  else
    { result := .error (.unsupportedNodeType c.NodeType)
      state := st
      requestIssued := false
      ifNoneMatchSent := none }

/-! ### The local rule loader (`readLocalRuleList`) -/

/-- `api.DetectRule`: a rule id and a compiled pattern.  The compiled
regular expression is represented by its source text. -/
structure DetectRule where
  ID : ℤ
  Pattern : String
deriving DecidableEq

/-- The scan loop of `readLocalRuleList`: compile every line in order
(`regexp.MustCompile`), stopping at the first malformed pattern.
`compile` models `regexp.Compile`; `MustCompile` panics exactly when
`compile` returns `none`. -/
def compileLines (compile : String → Option String) :
    List String → Option (List DetectRule)
  | [] => some []
  | l :: rest =>
    match compile l with
    | none => none
    | some p => (compileLines compile rest).map (fun rs => ⟨-1, p⟩ :: rs)

/-- `readLocalRuleList`, as a function of the pattern compiler, the
configured path, and the opened file's lines (`none` models a failed
`os.Open`).  `.error` models the `log.Fatal` abort on a malformed
pattern (`regexp.MustCompile` panics); a missing file merely logs and
degrades to the empty list. -/
def readLocalRuleList (compile : String → Option String) (path : String)
    (file : Option (List String)) : Except String (List DetectRule) :=
  if path = "" then .ok []
  else
    match file with
    | none => .ok []
    | some lines =>
      match compileLines compile lines with
      | none => .error "malformed pattern in local rule file"
      | some rules => .ok rules

/-! ### Concrete sample inputs (used by the witness theorems) -/

/-- A config with a positive speed-limit override (1.5 Mbps) and a
positive device-limit override. -/
def cfgOver : Config :=
  { APIHost := "http://panel", NodeID := 7, NodeType := "Vmess"
    EnableVless := false, VlessFlow := "", SpeedLimit := 3 / 2, DeviceLimit := 2 }

/-- A Shadowsocks config with both overrides unset (zero). -/
def cfgZero : Config :=
  { APIHost := "http://panel", NodeID := 7, NodeType := "Shadowsocks"
    EnableVless := false, VlessFlow := "", SpeedLimit := 0, DeviceLimit := 0 }

/-- A config with an unsupported node type. -/
def cfgFoo : Config :=
  { APIHost := "http://panel", NodeID := 7, NodeType := "Foo"
    EnableVless := false, VlessFlow := "", SpeedLimit := 0, DeviceLimit := 0 }

/-- A user record whose name is not an email address. -/
def userPlain : UserListResponseItem :=
  { UID := 9, UUID := "u-1", UserName := "plainuser", SpeedLimit := 5, DeviceLimit := 3 }

/-- A user record whose name is an email address. -/
def userMail : UserListResponseItem :=
  { UID := 10, UUID := "u-2", UserName := "a@b.com", SpeedLimit := 4, DeviceLimit := 1 }

/-- A user record whose panel speed limit makes `SpeedLimit * 1000000`
overflow `uint64` (`2 ^ 60` Mbps; the scaled product is a multiple of
`2 ^ 64`). -/
def userHuge : UserListResponseItem :=
  { UID := 11, UUID := "u-3", UserName := "x", SpeedLimit := 1152921504606846976
    DeviceLimit := 1 }

/-- A successful user-list envelope. -/
def envUsers : Response :=
  { Code := 0, Msg := "ok", Data := .userPayload ⟨[userPlain, userMail]⟩ }

/-- A successful user-list response carrying a fresh ETag. -/
def resUsersOk : RestyResponse :=
  { statusCode := 200, etag := "etag-new", body := "", result := envUsers }

/-- A 304 Not Modified response (no body, no envelope). -/
def res304 : RestyResponse :=
  { statusCode := 304, etag := "", body := ""
    result := { Code := 0, Msg := "", Data := .malformed "empty" } }

/-- A sample node-info payload. -/
def sampleNode : NodeInfoResponse :=
  { Name := "n", Remarks := "", Address := "a", Port := 443, NodeOrder := 1
    NodeSpeedLimit := 5, NodeType := "Vmess", EnableTLS := true, Path := "/ws"
    TransportProtocol := "ws", Host := "h", ServiceName := "", EnableVless := false
    Method := "", ServerKey := "" }

/-- A successful node-info envelope. -/
def envNode : Response := { Code := 0, Msg := "ok", Data := .nodePayload sampleNode }

/-- A successful node-info response carrying a fresh ETag. -/
def resNodeOk : RestyResponse :=
  { statusCode := 200, etag := "etag-n", body := "", result := envNode }

/-- A server-error response (status 500) with a diagnostic body. -/
def res500 : RestyResponse :=
  { statusCode := 500, etag := "", body := "boom", result := envUsers }

/-- A response with status exactly 400 and a clean envelope. -/
def res400 : RestyResponse :=
  { statusCode := 400, etag := "", body := "", result := envUsers }

/-- The initial ETag state (no tokens stored yet). -/
def stEmpty : EtagState := { node := "", users := "" }

/-- A pattern compiler accepting every pattern. -/
def compileAll : String → Option String := fun s => some s

/-- A pattern compiler rejecting the pattern `"("`. -/
def compileParen : String → Option String := fun s => if s = "(" then none else some s

/-! ## Helper lemmas -/

theorem splitAtSign_sound (cs l r : List Char) (h : splitAtSign cs = some (l, r)) :
    cs = l ++ '@' :: r ∧ '@' ∉ l := by
  induction cs generalizing l r with
  | nil => simp [splitAtSign] at h
  | cons c rest ih =>
    by_cases hc : c = '@'
    · subst hc
      simp only [splitAtSign, beq_self_eq_true, if_true, Option.some.injEq,
        Prod.mk.injEq] at h
      obtain ⟨hl, hr⟩ := h
      subst hl; subst hr
      simp
    · have hcb : (c == '@') = false := by simpa using hc
      simp only [splitAtSign, hcb, Bool.false_eq_true, if_false] at h
      cases hsp : splitAtSign rest with
      | none => rw [hsp] at h; simp at h
      | some pr =>
        obtain ⟨p1, p2⟩ := pr
        rw [hsp] at h
        simp at h
        obtain ⟨h1, h2⟩ := h
        subst h1; subst h2
        obtain ⟨ha, hb⟩ := ih p1 p2 hsp
        constructor
        · rw [ha]; simp
        · simp only [List.mem_cons, not_or]
          exact ⟨fun hx => hc hx.symm, hb⟩

theorem splitAtSign_complete (l r : List Char) (hl : '@' ∉ l) :
    splitAtSign (l ++ '@' :: r) = some (l, r) := by
  induction l with
  | nil => simp [splitAtSign]
  | cons c cs ih =>
    have hc : (c == '@') = false := by
      have hne : c ≠ '@' := fun hce => hl (List.mem_cons.mpr (Or.inl hce.symm))
      simpa using hne
    have ihh := ih (fun hm => hl (List.mem_cons.mpr (Or.inr hm)))
    simp [splitAtSign, hc, ihh]

theorem domainTailMatch_iff (r : List Char) :
    domainTailMatch r = true ↔
      ∃ d t : List Char, r = d ++ ('.' :: t) ∧ d ≠ [] ∧
        (∀ c ∈ d, isDomainChar c = true) ∧ 2 ≤ t.length ∧
        (∀ c ∈ t, c.isAlpha = true) := by
  constructor
  · intro h
    rw [domainTailMatch, List.any_eq_true] at h
    obtain ⟨i, hi, hp⟩ := h
    rw [List.mem_range] at hi
    cases hd : r.drop i with
    | nil => rw [hd] at hp; simp at hp
    | cons c t =>
      rw [hd] at hp
      simp only [Bool.and_eq_true, decide_eq_true_eq, List.all_eq_true,
        beq_iff_eq] at hp
      obtain ⟨⟨hne, hdom⟩, ⟨hc, halpha⟩, hlen⟩ := hp
      refine ⟨r.take i, t, ?_, hne, hdom, hlen, halpha⟩
      conv_lhs => rw [← List.take_append_drop i r]
      rw [hd, hc]
  · rintro ⟨d, t, hr, hne, hdom, hlen, halpha⟩
    rw [domainTailMatch, List.any_eq_true]
    refine ⟨d.length, ?_, ?_⟩
    · rw [List.mem_range, hr, List.length_append, List.length_cons]
      omega
    · rw [hr, List.take_left, List.drop_left]
      simp only [Bool.and_eq_true, decide_eq_true_eq, List.all_eq_true,
        beq_self_eq_true, true_and]
      exact ⟨⟨hne, hdom⟩, halpha, hlen⟩

theorem isEmailFormat_iff_emailGrammar (s : String) :
    isEmailFormat s = true ↔ EmailGrammar s := by
  constructor
  · intro h
    unfold isEmailFormat at h
    cases hsp : splitAtSign s.toList with
    | none => rw [hsp] at h; cases h
    | some pr =>
      obtain ⟨l, r⟩ := pr
      rw [hsp] at h
      simp only [Bool.and_eq_true, decide_eq_true_eq, List.all_eq_true] at h
      obtain ⟨⟨hl, hloc⟩, hdt⟩ := h
      obtain ⟨hcs, -⟩ := splitAtSign_sound _ _ _ hsp
      obtain ⟨d, t, hrd, hdne, hdom, hlen, halpha⟩ := (domainTailMatch_iff r).mp hdt
      refine ⟨l, d, t, ?_, hl, hloc, hdne, hdom, hlen, halpha⟩
      rw [hcs, hrd]
  · rintro ⟨l, d, t, hs, hl, hloc, hd, hdom, hlen, halpha⟩
    have hnotat : '@' ∉ l := fun hm => absurd (hloc _ hm) (by decide)
    unfold isEmailFormat
    rw [hs, splitAtSign_complete l _ hnotat]
    simp only [Bool.and_eq_true, decide_eq_true_eq, List.all_eq_true]
    exact ⟨⟨hl, hloc⟩, (domainTailMatch_iff _).mpr ⟨d, t, rfl, hd, hdom, hlen, halpha⟩⟩

theorem compileLines_some (compile : String → Option String) (lines : List String)
    (rules : List DetectRule) (h : compileLines compile lines = some rules) :
    rules.length = lines.length ∧
      ∀ i (hi : i < lines.length) (hr : i < rules.length),
        ∃ p, compile (lines.get ⟨i, hi⟩) = some p ∧ rules.get ⟨i, hr⟩ = ⟨-1, p⟩ := by
  induction lines generalizing rules with
  | nil =>
    simp only [compileLines, Option.some.injEq] at h
    subst h
    simp
  | cons l rest ih =>
    unfold compileLines at h
    cases hcl : compile l with
    | none => rw [hcl] at h; simp at h
    | some p =>
      rw [hcl] at h
      cases hrest : compileLines compile rest with
      | none => rw [hrest] at h; simp at h
      | some rs =>
        rw [hrest] at h
        simp at h
        subst h
        obtain ⟨hlen, hpt⟩ := ih rs hrest
        constructor
        · simp [hlen]
        · intro i hi hr
          cases i with
          | zero => exact ⟨p, hcl, rfl⟩
          | succ j =>
            have hj := hpt j (by simpa using hi) (by simpa using hr)
            simpa using hj

theorem parseResponse_never_parse_failed (c : Config) (res : RestyResponse)
    (path : String) (err : Option String) (nir : NodeInfoResponse) (m : String) :
    parseResponse c res path err ≠ .error (.parseNodeInfoFailed nir m) := by
  unfold parseResponse
  cases err with
  | some e => simp
  | none =>
    by_cases hs : 400 < res.statusCode
    · simp [hs]
    · by_cases hc : res.result.Code = 0 <;> simp [hs, hc]

theorem getUserList_success (c : Config) (st : EtagState) (res : RestyResponse)
    (ul : UserListResponse) (hsup : supportedNodeType c.NodeType = true)
    (h304 : res.statusCode ≠ 304) (hstat : ¬ 400 < res.statusCode)
    (hcode : res.result.Code = 0) (hdata : res.result.Data = .userPayload ul) :
    (GetUserList c st (.ok res)).result = .ok (ul.List.map (normalizeUser c)) := by
  simp [GetUserList, hsup, h304, parseResponse, hstat, hcode, hdata, unmarshalUserList]

theorem int_tdiv_coe8 (m : ℕ) : Int.tdiv (m : ℤ) (8 : ℤ) = ((m / 8 : ℕ) : ℤ) := rfl

/-! ## Claim theorems -/

/-- C1: override precedence.  In `parseNodeInfo` and for every record
normalized by `GetUserList`, a positive Config speed-limit override
fixes the normalized `SpeedLimit` to the unit-converted override
(independently of every panel-supplied value), a non-positive override
yields the unit-converted panel value; a positive Config device-limit
override fixes `DeviceLimit` to the override, otherwise the per-user
panel value is taken verbatim. -/
theorem override_precedence :
    (∀ (c : Config) (r : NodeInfoResponse) (ni : NodeInfo),
       parseNodeInfo c r = .ok ni →
       (0 < c.SpeedLimit → ni.SpeedLimit = floatMbpsToBps c.SpeedLimit) ∧
       (c.SpeedLimit ≤ 0 → ni.SpeedLimit = int64MbpsToBps r.NodeSpeedLimit)) ∧
    (∀ (c : Config) (u : UserListResponseItem),
       (0 < c.SpeedLimit →
          (normalizeUser c u).SpeedLimit = floatMbpsToBps c.SpeedLimit) ∧
       (c.SpeedLimit ≤ 0 →
          (normalizeUser c u).SpeedLimit = uint64MbpsToBps u.SpeedLimit) ∧
       (0 < c.DeviceLimit → (normalizeUser c u).DeviceLimit = c.DeviceLimit) ∧
       (c.DeviceLimit ≤ 0 → (normalizeUser c u).DeviceLimit = u.DeviceLimit)) ∧
    (∀ (c : Config) (st : EtagState) (res : RestyResponse) (ul : UserListResponse),
       supportedNodeType c.NodeType = true → res.statusCode ≠ 304 →
       ¬ 400 < res.statusCode → res.result.Code = 0 →
       res.result.Data = .userPayload ul →
       (GetUserList c st (.ok res)).result = .ok (ul.List.map (normalizeUser c))) := by
  refine ⟨?_, ?_, getUserList_success⟩
  · intro c r ni h
    simp only [parseNodeInfo, Except.ok.injEq] at h
    subst h
    constructor
    · intro hpos
      simp [if_pos hpos]
    · intro hle
      simp [if_neg (not_lt.mpr hle)]
  · intro c u
    refine ⟨?_, ?_, ?_, ?_⟩
    · intro hpos
      simp [normalizeUser, if_pos hpos]
    · intro hle
      simp [normalizeUser, if_neg (not_lt.mpr hle)]
    · intro hpos
      simp [normalizeUser, if_pos hpos]
    · intro hle
      simp [normalizeUser, if_neg (not_lt.mpr hle)]

/-- C1 witness: a 1.5 Mbps override beats a 5 Mbps panel value
(187500 bytes/sec); with the override unset the 5 Mbps panel value is
converted (625000 bytes/sec); the device override 2 beats the panel
value 3, and without an override the panel value 3 passes verbatim. -/
theorem override_precedence_witness :
    (0 : ℚ) < cfgOver.SpeedLimit ∧
    (normalizeUser cfgOver userPlain).SpeedLimit = 187500 ∧
    cfgZero.SpeedLimit ≤ 0 ∧
    (normalizeUser cfgZero userPlain).SpeedLimit = 625000 ∧
    (normalizeUser cfgOver userPlain).DeviceLimit = 2 ∧
    (normalizeUser cfgZero userPlain).DeviceLimit = 3 := by
  have hq : (0 : ℚ) < cfgOver.SpeedLimit := by norm_num [cfgOver]
  have hz : cfgZero.SpeedLimit ≤ 0 := by norm_num [cfgZero]
  have h1 := (override_precedence.2.1 cfgOver userPlain).1 hq
  have h2 := (override_precedence.2.1 cfgZero userPlain).2.1 hz
  have h3 := (override_precedence.2.1 cfgOver userPlain).2.2.1 (by norm_num [cfgOver])
  have h4 := (override_precedence.2.1 cfgZero userPlain).2.2.2 (by norm_num [cfgZero])
  refine ⟨hq, ?_, hz, ?_, ?_, ?_⟩
  · rw [h1]
    show floatMbpsToBps (3 / 2) = 187500
    rw [floatMbpsToBps]
    norm_num
    decide
  · rw [h2]
    decide
  · rw [h3]
    rfl
  · rw [h4]
    rfl

/-- C2 counterexample: the claim asserts the conversion equals
`floor(mbps * 1000000 / 8)` for every input, but the per-user `uint64`
path wraps: at a panel speed limit of `2 ^ 60` Mbps the scaled product
is a multiple of `2 ^ 64`, so the normalizer yields `0`, not the
mathematical floor. -/
theorem conversion_not_floor_counterexample :
    (normalizeUser cfgZero userHuge).SpeedLimit ≠
      userHuge.SpeedLimit * 1000000 / 8 := by
  have h : (normalizeUser cfgZero userHuge).SpeedLimit =
      uint64MbpsToBps userHuge.SpeedLimit := by
    simp only [normalizeUser]
    rw [if_neg]
    norm_num [cfgZero]
  rw [h]
  decide

/-- C2 (amended): the Mbps→bytes/sec conversion equals
`floor(mbps * 1000000 / 8)` on every path whenever the scaled product
fits the machine word: always for the (exact-rational) positive float
override, for `0 ≤ n` with `n * 1000000 < 2 ^ 63` on the `int64` node
path, and for `s * 1000000 < 2 ^ 64` on the `uint64` per-user path;
fractional inputs truncate (1.5 Mbps → 187500 bytes/sec).  Outside
those ranges the machine multiplication wraps. -/
theorem conversion_floor_in_range :
    (∀ q : ℚ, 0 < q → (floatMbpsToBps q : ℤ) = ⌊q * 1000000 / 8⌋) ∧
    (∀ n : ℤ, 0 ≤ n → n * 1000000 < 2 ^ 63 →
       int64MbpsToBps n = n.toNat * 1000000 / 8) ∧
    (∀ s : ℕ, s * 1000000 < 2 ^ 64 → uint64MbpsToBps s = s * 1000000 / 8) ∧
    floatMbpsToBps (3 / 2) = 187500 := by
  refine ⟨?_, ?_, ?_, ?_⟩
  · intro q hq
    have hnn : (0 : ℚ) ≤ q * 1000000 / 8 := by positivity
    unfold floatMbpsToBps
    exact Int.toNat_of_nonneg (Int.floor_nonneg.mpr hnn)
  · intro n h0 hlt
    obtain ⟨m, rfl⟩ := Int.eq_ofNat_of_zero_le h0
    have hm : (m : ℤ) * 1000000 = ((m * 1000000 : ℕ) : ℤ) := by push_cast; ring
    have hltn : (m * 1000000 : ℕ) < 2 ^ 63 := by
      rw [hm] at hlt
      exact_mod_cast hlt
    unfold int64MbpsToBps goDiv wrapInt64 toUInt64Nat
    rw [hm]
    have hw : (((m * 1000000 : ℕ) : ℤ) + 2 ^ 63) % 2 ^ 64 - 2 ^ 63 =
        ((m * 1000000 : ℕ) : ℤ) := by omega
    rw [hw, int_tdiv_coe8]
    have hdlt : (m * 1000000) / 8 < 2 ^ 64 := by
      have := Nat.div_le_self (m * 1000000) 8
      omega
    have : (((m * 1000000) / 8 : ℕ) : ℤ) % 2 ^ 64 = (((m * 1000000) / 8 : ℕ) : ℤ) := by
      omega
    rw [this]
    rfl
  · intro s h
    unfold uint64MbpsToBps
    rw [Nat.mod_eq_of_lt h]
  · rw [floatMbpsToBps]
    norm_num
    decide

/-- C2 witness: the amended statement applied at 3/2 Mbps (float
path), 5 Mbps (`int64` path) and 7 Mbps (`uint64` path). -/
theorem conversion_floor_in_range_witness :
    (0 : ℚ) < 3 / 2 ∧ (floatMbpsToBps (3 / 2) : ℤ) = ⌊(3 / 2 : ℚ) * 1000000 / 8⌋ ∧
    (0 : ℤ) ≤ 5 ∧ (5 * 1000000 : ℤ) < 2 ^ 63 ∧
    int64MbpsToBps 5 = (5 : ℤ).toNat * 1000000 / 8 ∧
    (7 * 1000000 : ℕ) < 2 ^ 64 ∧ uint64MbpsToBps 7 = 7 * 1000000 / 8 :=
  ⟨by norm_num, conversion_floor_in_range.1 (3 / 2) (by norm_num),
   by norm_num, by norm_num,
   conversion_floor_in_range.2.1 5 (by norm_num) (by norm_num),
   by norm_num, conversion_floor_in_range.2.2.1 7 (by norm_num)⟩

/-- C3: the cache-token protocol.  Each call reads its resource's
stored token and sends it as the `If-None-Match` header; the stored
token changes only on a non-304, transport-error-free response whose
token is nonempty and different from the stored one, in which case the
response token is stored; each call leaves the other resource's token
untouched. -/
theorem etag_token_protocol :
    (∀ (c : Config) (st : EtagState) (tr : Except String RestyResponse),
       (GetNodeInfo c st tr).ifNoneMatchSent = some st.node) ∧
    (∀ (c : Config) (st : EtagState) (tr : Except String RestyResponse),
       (GetNodeInfo c st tr).state.users = st.users) ∧
    (∀ (c : Config) (st : EtagState) (res : RestyResponse), res.statusCode ≠ 304 →
       (GetNodeInfo c st (.ok res)).state.node =
         if res.etag ≠ "" ∧ res.etag ≠ st.node then res.etag else st.node) ∧
    (∀ (c : Config) (st : EtagState) (res : RestyResponse), res.statusCode = 304 →
       (GetNodeInfo c st (.ok res)).state = st) ∧
    (∀ (c : Config) (st : EtagState) (e : String),
       (GetNodeInfo c st (.error e)).state = st) ∧
    (∀ (c : Config) (st : EtagState) (tr : Except String RestyResponse),
       supportedNodeType c.NodeType = true →
       (GetUserList c st tr).ifNoneMatchSent = some st.users) ∧
    (∀ (c : Config) (st : EtagState) (tr : Except String RestyResponse),
       (GetUserList c st tr).state.node = st.node) ∧
    (∀ (c : Config) (st : EtagState) (res : RestyResponse),
       supportedNodeType c.NodeType = true → res.statusCode ≠ 304 →
       (GetUserList c st (.ok res)).state.users =
         if res.etag ≠ "" ∧ res.etag ≠ st.users then res.etag else st.users) ∧
    (∀ (c : Config) (st : EtagState) (res : RestyResponse),
       supportedNodeType c.NodeType = true → res.statusCode = 304 →
       (GetUserList c st (.ok res)).state = st) ∧
    (∀ (c : Config) (st : EtagState) (tr : Except String RestyResponse),
       supportedNodeType c.NodeType = false → (GetUserList c st tr).state = st) ∧
    (∀ (c : Config) (st : EtagState) (e : String),
       supportedNodeType c.NodeType = true →
       (GetUserList c st (.error e)).state = st) := by
  refine ⟨?_, ?_, ?_, ?_, ?_, ?_, ?_, ?_, ?_, ?_, ?_⟩
  · intro c st tr
    cases tr with
    | error e => simp [GetNodeInfo]
    | ok res => by_cases h304 : res.statusCode = 304 <;> simp [GetNodeInfo, h304]
  · intro c st tr
    cases tr with
    | error e => simp [GetNodeInfo]
    | ok res =>
      by_cases h304 : res.statusCode = 304
      · simp [GetNodeInfo, h304]
      · simp only [GetNodeInfo, h304, if_false]
        split_ifs with h <;> simp
  · intro c st res h304
    simp only [GetNodeInfo, h304, if_false]
    split_ifs with h <;> simp
  · intro c st res h304
    simp [GetNodeInfo, h304]
  · intro c st e
    simp [GetNodeInfo]
  · intro c st tr hsup
    cases tr with
    | error e => simp [GetUserList, hsup]
    | ok res => by_cases h304 : res.statusCode = 304 <;> simp [GetUserList, hsup, h304]
  · intro c st tr
    by_cases hsup : supportedNodeType c.NodeType
    · cases tr with
      | error e => simp [GetUserList, hsup]
      | ok res =>
        by_cases h304 : res.statusCode = 304
        · simp [GetUserList, hsup, h304]
        · simp only [GetUserList, hsup, if_true, h304, if_false]
          split_ifs with h <;> simp
    · simp [GetUserList, hsup]
  · intro c st res hsup h304
    simp only [GetUserList, hsup, if_true, h304, if_false]
    split_ifs with h <;> simp
  · intro c st res hsup h304
    simp [GetUserList, hsup, h304]
  · intro c st tr hsup
    simp [GetUserList, hsup]
  · intro c st e hsup
    simp [GetUserList, hsup]

/-- C3 witness: starting from the empty state, a successful response
carrying ETag `"etag-n"` stores it for the node resource, leaves the
users token alone, and the header sent was the old (empty) token; a
304 response changes nothing. -/
theorem etag_token_protocol_witness :
    (GetNodeInfo cfgZero stEmpty (.ok resNodeOk)).ifNoneMatchSent = some "" ∧
    (GetNodeInfo cfgZero stEmpty (.ok resNodeOk)).state.node = "etag-n" ∧
    (GetNodeInfo cfgZero stEmpty (.ok resNodeOk)).state.users = "" ∧
    (GetNodeInfo cfgZero stEmpty (.ok res304)).state = stEmpty := by
  have h1 := etag_token_protocol.1 cfgZero stEmpty (.ok resNodeOk)
  have h2 := etag_token_protocol.2.2.1 cfgZero stEmpty resNodeOk (by decide)
  have h3 := etag_token_protocol.2.1 cfgZero stEmpty (.ok resNodeOk)
  have h4 := etag_token_protocol.2.2.2.1 cfgZero stEmpty res304 rfl
  refine ⟨h1, ?_, h3, h4⟩
  rw [h2]
  decide

/-- C7: identity normalization.  The embedded matcher agrees with the
spec's email grammar; a user record whose `user_name` satisfies the
grammar keeps it verbatim as `Email`, any other record gets the fixed
placeholder domain `@vpnboard.user` appended; the records returned by
`GetUserList` are exactly the normalized records. -/
theorem email_identity_normalization :
    (∀ s : String, isEmailFormat s = true ↔ EmailGrammar s) ∧
    (∀ (c : Config) (u : UserListResponseItem),
       (EmailGrammar u.UserName → (normalizeUser c u).Email = u.UserName) ∧
       (¬ EmailGrammar u.UserName →
          (normalizeUser c u).Email = u.UserName ++ "@vpnboard.user")) ∧
    (∀ (c : Config) (st : EtagState) (res : RestyResponse) (ul : UserListResponse),
       supportedNodeType c.NodeType = true → res.statusCode ≠ 304 →
       ¬ 400 < res.statusCode → res.result.Code = 0 →
       res.result.Data = .userPayload ul →
       (GetUserList c st (.ok res)).result = .ok (ul.List.map (normalizeUser c))) := by
  refine ⟨isEmailFormat_iff_emailGrammar, ?_, getUserList_success⟩
  intro c u
  constructor
  · intro hg
    have hb := (isEmailFormat_iff_emailGrammar u.UserName).mpr hg
    simp [normalizeUser, hb]
  · intro hg
    have hb : isEmailFormat u.UserName = false := by
      cases hif : isEmailFormat u.UserName
      · rfl
      · exact absurd ((isEmailFormat_iff_emailGrammar u.UserName).mp hif) hg
    simp [normalizeUser, hb]

/-- C7 witness: `"a@b.com"` is kept verbatim, `"plainuser"` becomes
`"plainuser@vpnboard.user"`. -/
theorem email_identity_normalization_witness :
    (normalizeUser cfgZero userMail).Email = "a@b.com" ∧
    (normalizeUser cfgZero userPlain).Email = "plainuser@vpnboard.user" := by
  constructor
  · have hg : EmailGrammar userMail.UserName :=
      (email_identity_normalization.1 userMail.UserName).mp (by decide)
    exact (email_identity_normalization.2.1 cfgZero userMail).1 hg
  · have hg : ¬ EmailGrammar userPlain.UserName := fun hgram =>
      absurd ((email_identity_normalization.1 userPlain.UserName).mpr hgram)
        (by decide)
    exact (email_identity_normalization.2.1 cfgZero userPlain).2 hg

/-- C8: for every record normalized by `GetUserList`, the `Passwd`
field equals the record's `UUID` when the node type is Shadowsocks and
stays unset (empty) for every other node type; the records returned by
`GetUserList` are exactly the normalized records. -/
theorem shadowsocks_credential :
    (∀ (c : Config) (u : UserListResponseItem),
       (normalizeUser c u).UUID = u.UUID ∧
       (c.NodeType = "Shadowsocks" →
          (normalizeUser c u).Passwd = (normalizeUser c u).UUID) ∧
       (c.NodeType ≠ "Shadowsocks" → (normalizeUser c u).Passwd = "")) ∧
    (∀ (c : Config) (st : EtagState) (res : RestyResponse) (ul : UserListResponse),
       supportedNodeType c.NodeType = true → res.statusCode ≠ 304 →
       ¬ 400 < res.statusCode → res.result.Code = 0 →
       res.result.Data = .userPayload ul →
       (GetUserList c st (.ok res)).result = .ok (ul.List.map (normalizeUser c))) := by
  refine ⟨?_, getUserList_success⟩
  intro c u
  refine ⟨rfl, ?_, ?_⟩
  · intro h
    simp [normalizeUser, h]
  · intro h
    simp [normalizeUser, beq_iff_eq, h]

/-- C8 witness: under the Shadowsocks config the password equals the
uuid `"u-1"`; under the Vmess config it is empty. -/
theorem shadowsocks_credential_witness :
    (normalizeUser cfgZero userPlain).Passwd = "u-1" ∧
    (normalizeUser cfgOver userPlain).Passwd = "" := by
  constructor
  · have h := (shadowsocks_credential.1 cfgZero userPlain).2.1 rfl
    rw [h]
    rfl
  · exact (shadowsocks_credential.1 cfgOver userPlain).2.2 (by decide)

/-- C9: the rule loader.  An empty path yields the empty rule sequence
without error; an unopenable file yields the empty sequence
non-fatally; for a readable file every line becomes exactly one rule
carrying the local sentinel id `-1` and the line's compiled pattern
(in particular each non-empty line becomes exactly one such rule),
and a malformed pattern is a fatal error rather than a skipped
line. -/
theorem read_local_rule_list_behavior :
    (∀ (compile : String → Option String) (file : Option (List String)),
       readLocalRuleList compile "" file = .ok []) ∧
    (∀ (compile : String → Option String) (path : String), path ≠ "" →
       readLocalRuleList compile path none = .ok []) ∧
    (∀ (compile : String → Option String) (path : String) (lines : List String)
       (rules : List DetectRule), path ≠ "" →
       readLocalRuleList compile path (some lines) = .ok rules →
       rules.length = lines.length ∧
       ∀ i (hi : i < lines.length) (hr : i < rules.length),
         ∃ p, compile (lines.get ⟨i, hi⟩) = some p ∧ rules.get ⟨i, hr⟩ = ⟨-1, p⟩) ∧
    (∀ (compile : String → Option String) (path : String) (lines : List String),
       path ≠ "" → compileLines compile lines = none →
       ∃ msg, readLocalRuleList compile path (some lines) = .error msg) := by
  refine ⟨?_, ?_, ?_, ?_⟩
  · intro compile file
    simp [readLocalRuleList]
  · intro compile path h
    simp [readLocalRuleList, h]
  · intro compile path lines rules hp h
    simp only [readLocalRuleList, if_neg hp] at h
    cases hcl : compileLines compile lines with
    | none => rw [hcl] at h; simp at h
    | some rs =>
      rw [hcl] at h
      simp at h
      subst h
      exact compileLines_some compile lines rs hcl
  · intro compile path lines hp hcl
    refine ⟨"malformed pattern in local rule file", ?_⟩
    simp [readLocalRuleList, hp, hcl]

/-- C9 witness: empty path and missing file both yield the empty
sequence; a readable two-line file yields one rule per line with id
`-1`; a malformed second line is fatal. -/
theorem read_local_rule_list_behavior_witness :
    readLocalRuleList compileAll "" (some ["a", "b"]) = .ok [] ∧
    readLocalRuleList compileAll "/rules" none = .ok [] ∧
    ([(⟨-1, "hello"⟩ : DetectRule)].length = (["hello"] : List String).length) ∧
    (∃ msg, readLocalRuleList compileParen "/rules" (some ["a", "("]) = .error msg) := by
  refine ⟨read_local_rule_list_behavior.1 compileAll (some ["a", "b"]),
    read_local_rule_list_behavior.2.1 compileAll "/rules" (by decide),
    (read_local_rule_list_behavior.2.2.1 compileAll "/rules" ["hello"]
      [⟨-1, "hello"⟩] (by decide) rfl).1,
    read_local_rule_list_behavior.2.2.2 compileParen "/rules" ["a", "("] (by decide)
      rfl⟩

/-- C4: when the configured node type is not one of the five supported
families, `GetUserList` fails with the unsupported-node-type error
before any network request is issued (no request, no header sent,
independent of the transport result); for each of the five supported
values the eager validation passes and the request proceeds. -/
theorem node_type_validation :
    (∀ t : String, supportedNodeType t = true ↔
       (t = "V2ray" ∨ t = "Trojan" ∨ t = "Shadowsocks" ∨ t = "Vmess" ∨ t = "Vless")) ∧
    (∀ (c : Config) (st : EtagState) (tr : Except String RestyResponse),
       supportedNodeType c.NodeType = false →
       (GetUserList c st tr).result = .error (.unsupportedNodeType c.NodeType) ∧
       (GetUserList c st tr).requestIssued = false ∧
       (GetUserList c st tr).ifNoneMatchSent = none) ∧
    (∀ (c : Config) (st : EtagState) (tr : Except String RestyResponse),
       supportedNodeType c.NodeType = true →
       (GetUserList c st tr).requestIssued = true) := by
  refine ⟨?_, ?_, ?_⟩
  · intro t
    simp [supportedNodeType, or_assoc]
  · intro c st tr h
    simp [GetUserList, h]
  · intro c st tr h
    cases tr with
    | error e => simp [GetUserList, h]
    | ok res =>
      by_cases h304 : res.statusCode = 304 <;> simp [GetUserList, h, h304]

/-- C4 witness: with node type `"Foo"` the call fails eagerly and no
request is issued; `"Vless"` passes validation. -/
theorem node_type_validation_witness :
    supportedNodeType cfgFoo.NodeType = false ∧
    (GetUserList cfgFoo stEmpty (.ok resUsersOk)).result =
      .error (.unsupportedNodeType "Foo") ∧
    (GetUserList cfgFoo stEmpty (.ok resUsersOk)).requestIssued = false ∧
    supportedNodeType "Vless" = true := by
  have h := node_type_validation.2.1 cfgFoo stEmpty (.ok resUsersOk) (by decide)
  exact ⟨by decide, h.1, h.2.1, by decide⟩

/-- C5: `parseResponse` settles every response by ordered rules: a
transport error fails first (carrying the target URL); otherwise a
status strictly above 400 fails carrying the URL and the body (the
transport-error slot is reported together with it, and is necessarily
empty at that point); otherwise a nonzero envelope `code` fails
carrying the envelope; otherwise the envelope is returned.  A status
of exactly 400 is not rejected by the status rule. -/
theorem parse_response_rules :
    (∀ (c : Config) (res : RestyResponse) (path e : String),
       parseResponse c res path (some e) =
         .error (.transportFailed (assembleURL c path) e)) ∧
    (∀ (c : Config) (res : RestyResponse) (path : String), 400 < res.statusCode →
       parseResponse c res path none =
         .error (.remoteFailed (assembleURL c path) res.body none)) ∧
    (∀ (c : Config) (res : RestyResponse) (path : String), ¬ 400 < res.statusCode →
       res.result.Code ≠ 0 →
       parseResponse c res path none = .error (.retInvalid res.result)) ∧
    (∀ (c : Config) (res : RestyResponse) (path : String), ¬ 400 < res.statusCode →
       res.result.Code = 0 →
       parseResponse c res path none = .ok res.result) ∧
    (∀ (c : Config) (res : RestyResponse) (path : String), res.statusCode = 400 →
       res.result.Code = 0 →
       parseResponse c res path none = .ok res.result) := by
  refine ⟨?_, ?_, ?_, ?_, ?_⟩ <;> intros <;> simp [parseResponse, *]

/-- C5 witness: a clean 200 envelope parses; a 500 response fails with
URL and body; a response with status exactly 400 is accepted. -/
theorem parse_response_rules_witness :
    parseResponse cfgZero resUsersOk userListPath none = .ok envUsers ∧
    parseResponse cfgZero res500 userListPath none =
      .error (.remoteFailed (assembleURL cfgZero userListPath) "boom" none) ∧
    assembleURL cfgZero userListPath = "http://panel/api/public/xrayr/user/list" ∧
    parseResponse cfgZero res400 userListPath none = .ok envUsers := by
  refine ⟨?_, ?_, rfl, ?_⟩
  · exact parse_response_rules.2.2.2.1 cfgZero resUsersOk userListPath
      (by norm_num [resUsersOk]) rfl
  · exact parse_response_rules.2.1 cfgZero res500 userListPath (by norm_num [res500])
  · exact parse_response_rules.2.2.2.2 cfgZero res400 userListPath
      (by norm_num [res400]) rfl

/-- C6: a 304 response short-circuits both `GetNodeInfo` and
`GetUserList` with the distinguished not-modified error before the
response parser runs: for every envelope content the result is the
not-modified value, the `eTags` state is untouched, and no normalized
entity is constructed; the not-modified values are distinct from every
parser failure. -/
theorem not_modified_short_circuit :
    (∀ (c : Config) (st : EtagState) (res : RestyResponse), res.statusCode = 304 →
       (GetNodeInfo c st (.ok res)).result = .error .nodeNotModified ∧
       (GetNodeInfo c st (.ok res)).state = st) ∧
    (∀ (c : Config) (st : EtagState) (res : RestyResponse),
       supportedNodeType c.NodeType = true → res.statusCode = 304 →
       (GetUserList c st (.ok res)).result = .error .userNotModified ∧
       (GetUserList c st (.ok res)).state = st) ∧
    (∀ url body terr, ApiError.nodeNotModified ≠ .remoteFailed url body terr ∧
       ApiError.userNotModified ≠ .remoteFailed url body terr) ∧
    (∀ env, ApiError.nodeNotModified ≠ .retInvalid env ∧
       ApiError.userNotModified ≠ .retInvalid env) ∧
    (∀ url msg, ApiError.nodeNotModified ≠ .transportFailed url msg ∧
       ApiError.userNotModified ≠ .transportFailed url msg) ∧
    ApiError.nodeNotModified ≠ ApiError.userNotModified := by
  refine ⟨?_, ?_, by intros; exact ⟨by simp, by simp⟩,
    by intros; exact ⟨by simp, by simp⟩,
    by intros; exact ⟨by simp, by simp⟩, by simp⟩
  · intro c st res h304
    simp [GetNodeInfo, h304]
  · intro c st res hsup h304
    simp [GetUserList, hsup, h304]

/-- C6 witness: a concrete 304 response yields the not-modified signal
on both endpoints and leaves the token state untouched. -/
theorem not_modified_short_circuit_witness :
    (GetNodeInfo cfgZero stEmpty (.ok res304)).result = .error .nodeNotModified ∧
    (GetNodeInfo cfgZero stEmpty (.ok res304)).state = stEmpty ∧
    (GetUserList cfgZero stEmpty (.ok res304)).result = .error .userNotModified ∧
    (GetUserList cfgZero stEmpty (.ok res304)).state = stEmpty := by
  have h1 := not_modified_short_circuit.1 cfgZero stEmpty res304 rfl
  have h2 := not_modified_short_circuit.2.1 cfgZero stEmpty res304 (by decide) rfl
  exact ⟨h1.1, h1.2, h2.1, h2.2⟩

/-- C10: `parseNodeInfo` is total — it returns `.ok` on every payload
and every config — so the `parse node info failed` branch of
`GetNodeInfo` is unreachable: no call outcome ever carries that
error. -/
theorem parse_node_info_total :
    (∀ (c : Config) (r : NodeInfoResponse), ∃ ni, parseNodeInfo c r = .ok ni) ∧
    (∀ (c : Config) (st : EtagState) (tr : Except String RestyResponse)
       (nir : NodeInfoResponse) (e : String),
       (GetNodeInfo c st tr).result ≠ .error (.parseNodeInfoFailed nir e)) := by
  constructor
  · intro c r
    exact ⟨_, rfl⟩
  · intro c st tr nir e
    cases tr with
    | error m => simp [GetNodeInfo]
    | ok res =>
      by_cases h304 : res.statusCode = 304
      · simp [GetNodeInfo, h304]
      · simp only [GetNodeInfo, h304, if_false]
        cases hpr : parseResponse c res nodeInfoPath none with
        | error e2 =>
          simp only [hpr]
          exact fun he => by
            simp at he
            exact parseResponse_never_parse_failed c res nodeInfoPath none nir e
              (he ▸ hpr)
        | ok resp =>
          cases hum : unmarshalNodeInfo resp.Data with
          | none => simp [hpr, hum]
          | some nir2 => simp [hpr, hum, parseNodeInfo]

end VpnBoard
